import Mathlib

/-!
A verification development for the Legal-AI-Case-Advisor repository.

The repository ships documentation and a React frontend; the privilege-guard
core it describes (Crypto Envelope, Audit Ledger, Session Manager, Privilege
Guard, Conflict Screener) is specified in the project documents but its
implementation is not part of the source tree.  The definitions below embed
that core as a state machine, modelled from the specification; the frontend
`App` component (role switching and navigation) is embedded directly from its
JSX source.
-/

namespace Advisor

/-- Privilege scope of a session (spec §3 / glossary): `attorney-full`,
`client-own-only`, `none`. -/
inductive Scope where
  | attorneyFull
  | clientOwnOnly
  | none
deriving DecidableEq, Repr

/-- Audit actions (spec §3, AuditEntry.action). -/
inductive Action where
  | sessionCreated
  | sessionRevoked
  | readAttempt
  | writeAttempt
  | accessDenied
  | conflictCheck
deriving DecidableEq, Repr

/-- Audit outcomes (spec §3). -/
inductive Outcome where
  | granted
  | denied
deriving DecidableEq, Repr

/-- Logical content type of a privileged communication (spec §3). -/
inductive CType where
  | note
  | message
  | documentSummary
deriving DecidableEq, Repr

/-- Error taxonomy (spec §7). -/
inductive GuardErr where
  | invalidSubject
  | sessionInvalid
  | accessDenied
  | conflictUnresolved
  | screeningUnavailable
  | decryptionError
  | keyUnavailable
  | tamperDetected
  | auditWrite
deriving DecidableEq, Repr

/-- Modelled from the spec: the associated-data context of the Crypto
Envelope binds a ciphertext to the (attorney id, client id) pair (spec §4.1). -/
structure Ctx where
  attorneyId : Nat
  clientId : Nat
deriving DecidableEq, Repr

/-- Modelled from the spec: a ciphertext produced by `seal`; the context tag
models authenticated-encryption associated data (spec §4.1). -/
structure Ciphertext where
  body : Nat
  tag : Ctx
deriving DecidableEq, Repr

/-- Modelled from the spec: key material is referenced, never embedded; a key
registry resolves key references to keys (spec §4.1, §9). -/
def lookupKey (reg : List (Nat × Nat)) (keyRef : Nat) : Option Nat :=
  match reg.find? (fun kv => kv.1 == keyRef) with
  | Option.none => Option.none
  | some kv => some kv.2

/-- Modelled from the spec: `seal(plaintext, context) -> (ciphertext, keyRef)`
(spec §4.1).  The symmetric key is supplied by the caller together with the
reference under which the registry resolves it. -/
def sealPayload (key keyRef : Nat) (plaintext : Nat) (ctx : Ctx) : Ciphertext × Nat :=
  ({ body := plaintext + key, tag := ctx }, keyRef)

/-- Modelled from the spec: `open(ciphertext, keyRef, context) -> plaintext`,
failing with `KeyUnavailableError` when the key reference does not resolve and
with `DecryptionError` when the context does not match the associated data the
payload was sealed under (spec §4.1). -/
def openSealed (reg : List (Nat × Nat)) (c : Ciphertext) (keyRef : Nat) (ctx : Ctx) :
    Except GuardErr Nat :=
  match lookupKey reg keyRef with
  | Option.none => .error .keyUnavailable
  | some key =>
      if c.tag = ctx then .ok (c.body - key) else .error .decryptionError

/-- Modelled from the spec: an AuditEntry carries a monotonically increasing
sequence number, timestamp, actor, action, subject, outcome, and a hash
chaining to the previous entry's hash (spec §3). -/
structure AuditEntry where
  seq : Nat
  timestamp : Nat
  actor : Nat
  action : Action
  subject : Nat
  outcome : Outcome
  prevHash : Nat
  hash : Nat
deriving DecidableEq, Repr

/-- The caller-supplied part of an audit entry; sequence number and hashes
are assigned by the Ledger on append. -/
structure EntryData where
  timestamp : Nat
  actor : Nat
  action : Action
  subject : Nat
  outcome : Outcome
deriving DecidableEq, Repr

def actionCode : Action → Nat
  | .sessionCreated => 0
  | .sessionRevoked => 1
  | .readAttempt => 2
  | .writeAttempt => 3
  | .accessDenied => 4
  | .conflictCheck => 5

def outcomeCode : Outcome → Nat
  | .granted => 0
  | .denied => 1

/-- A deterministic combining function standing in for the ledger's
cryptographic hash. -/
def mix (a b : Nat) : Nat := a * 1000003 + b + 1

/-- Hash of an entry's data fields together with its sequence number. -/
def dataHash (seq : Nat) (d : EntryData) : Nat :=
  mix seq (mix d.timestamp (mix d.actor (mix (actionCode d.action)
    (mix d.subject (outcomeCode d.outcome)))))

/-- Modelled from the spec: each entry's hash chains to the previous entry's
hash (spec §3, glossary "hash chain"). -/
def entryHash (prev seq : Nat) (d : EntryData) : Nat :=
  mix prev (dataHash seq d)

/-- Hash of the last entry of the ledger, `p` for an empty ledger
(genesis anchor). -/
def lastD (p : Nat) : List AuditEntry → Nat
  | [] => p
  | e :: rest => lastD e.hash rest

def entryData (e : AuditEntry) : EntryData :=
  ⟨e.timestamp, e.actor, e.action, e.subject, e.outcome⟩

/-- The entry the Ledger appends for data `d` on ledger `l`: next sequence
number is `l.length`, previous hash is the hash of the last entry. -/
def mkEntry (l : List AuditEntry) (d : EntryData) : AuditEntry :=
  { seq := l.length, timestamp := d.timestamp, actor := d.actor,
    action := d.action, subject := d.subject, outcome := d.outcome,
    prevHash := lastD 0 l, hash := entryHash (lastD 0 l) l.length d }

/-- Modelled from the spec: `verifyChain` recomputes the hash chain
(spec §4.2).  `chainOk prev seq l` checks that `l` carries consecutive
sequence numbers starting at `seq` and a hash chain anchored at `prev`. -/
def chainOk : Nat → Nat → List AuditEntry → Bool
  | _, _, [] => true
  | prev, seq, e :: rest =>
      decide (e.seq = seq) && decide (e.prevHash = prev) &&
      decide (e.hash = entryHash prev seq (entryData e)) && chainOk e.hash (seq + 1) rest

/-- The anchor hash for verifying a range starting at index `lo`: the genesis
anchor `p` for `lo = 0`, otherwise the stored hash of entry `lo - 1`. -/
def chainAnchor (p : Nat) (l : List AuditEntry) : Nat → Nat
  | 0 => p
  | n + 1 =>
      match l.get? n with
      | Option.none => p
      | some e => e.hash

/-- Modelled from the spec: `verifyChain(range) -> bool` recomputes the hash
chain over a range of the ledger (spec §4.2). -/
def verifyChain (l : List AuditEntry) (lo len : Nat) : Bool :=
  chainOk (chainAnchor 0 l lo) lo ((l.drop lo).take len)

/-- Modelled from the spec: Attorney — identifier, bar-standing status,
active flag (spec §3). -/
structure Attorney where
  attorneyId : Nat
  barGood : Bool
  active : Bool
deriving DecidableEq, Repr

/-- Modelled from the spec: Client — identifier and associated attorney
identifiers (spec §3). -/
structure Client where
  clientId : Nat
  attorneyIds : List Nat
deriving DecidableEq, Repr

/-- Modelled from the spec: Session — identifier, subject (attorney id,
optional client id), issued-at, expires-at, revoked flag, privilege scope
(spec §3).  Expiry is a derived property, not a stored transition, so there
is no stored `expired` flag. -/
structure Session where
  sessionId : Nat
  attorneyId : Nat
  clientId : Option Nat
  token : Nat
  issuedAt : Nat
  expiresAt : Nat
  revoked : Bool
  scope : Scope
deriving DecidableEq, Repr

/-- Modelled from the spec: PrivilegedCommunication — identifier, attorney
id, client id, created-at, encrypted payload, key reference, content type
(spec §3). -/
structure PrivilegedCommunication where
  recordId : Nat
  attorneyId : Nat
  clientId : Nat
  createdAt : Nat
  payload : Ciphertext
  keyRef : Nat
  contentType : CType
deriving DecidableEq, Repr

/-- Modelled from the spec: ConflictCheckResult — request id, attorney id,
client id, cleared flag, basis/reason, timestamp (spec §3). -/
structure ConflictCheckResult where
  requestId : Nat
  attorneyId : Nat
  clientId : Nat
  cleared : Bool
  reason : Nat
  timestamp : Nat
deriving DecidableEq, Repr

/-- The outcome the pluggable Conflict Screener reports when it is
reachable (spec §4.5). -/
structure ScreenData where
  cleared : Bool
  reason : Nat
deriving DecidableEq, Repr

/-- Modelled from the spec: failure of the screener itself
(`ScreeningUnavailableError`, spec §4.5). -/
inductive ScreenErr where
  | unavailable
deriving DecidableEq, Repr

/-- Modelled from the spec: the persisted state of the privilege-guard core —
the append-mostly collections of §6 plus the Ledger, the key registry, and an
availability flag for the audit store (used to model ledger-append failure,
spec §7 fail-closed). -/
structure GuardState where
  attorneys : List Attorney
  clients : List Client
  sessions : List Session
  nextSessionId : Nat
  comms : List PrivilegedCommunication
  nextRecordId : Nat
  conflictResults : List ConflictCheckResult
  keyRegistry : List (Nat × Nat)
  nextKeyRef : Nat
  ledger : List AuditEntry
  auditOk : Bool
deriving DecidableEq, Repr

/-- Modelled from the spec: `append(entry) -> sequenceNumber`, which either
succeeds or the caller's operation must abort (spec §4.2); an unavailable
audit store makes the append fail. -/
def appendE (st : GuardState) (d : EntryData) : Option GuardState :=
  if st.auditOk then some { st with ledger := st.ledger ++ [mkEntry st.ledger d] }
  else Option.none

def findSession (st : GuardState) (sid : Nat) : Option Session :=
  st.sessions.find? (fun s => s.sessionId == sid)

/-- Modelled from the spec: `verify(sessionId, token) -> Session | fails with
SessionInvalidError` when the token mismatches, the session is Revoked, or
past expiry — expiry checked against the current time supplied at the call,
not cached state (spec §4.3). -/
def verifySession (st : GuardState) (sid tok now : Nat) : Except GuardErr Session :=
  match findSession st sid with
  | Option.none => .error .sessionInvalid
  | some s =>
      if s.token = tok ∧ s.revoked = false ∧ now < s.expiresAt then .ok s
      else .error .sessionInvalid

/-- The subject check of `create`: the attorney must be active and a supplied
client must belong to that attorney (spec §4.3). -/
def subjectOk (st : GuardState) (a : Nat) (c : Option Nat) : Bool :=
  match st.attorneys.find? (fun att => att.attorneyId == a) with
  | Option.none => false
  | some att =>
      att.active &&
      (match c with
       | Option.none => true
       | some cid =>
          match st.clients.find? (fun cl => cl.clientId == cid) with
          | Option.none => false
          | some cl => cl.attorneyIds.contains a)

/-- Modelled from the spec: `create(attorneyId, clientId?, scope) -> Session`,
failing with `InvalidSubjectError` for a bad subject; every create emits an
AuditEntry (spec §4.3). -/
def createSession (st : GuardState) (a : Nat) (c : Option Nat) (scope : Scope)
    (token now ttl : Nat) : Except GuardErr Session × GuardState :=
  if subjectOk st a c then
    let s : Session := ⟨st.nextSessionId, a, c, token, now, now + ttl, false, scope⟩
    match appendE st ⟨now, s.sessionId, .sessionCreated, s.sessionId, .granted⟩ with
    | some st1 =>
        (.ok s, { st1 with sessions := st1.sessions ++ [s],
                           nextSessionId := st.nextSessionId + 1 })
    | Option.none => (.error .auditWrite, st)
  else (.error .invalidSubject, st)

/-- Marks the session with the given id as revoked, leaving others alone. -/
def markRevoked (sid : Nat) (t : Session) : Session :=
  if t.sessionId == sid then { t with revoked := true } else t

/-- Modelled from the spec: `revoke(sessionId)` transitions Active→Revoked,
irreversibly; every revoke emits an AuditEntry (spec §4.3). -/
def revokeSession (st : GuardState) (sid now : Nat) : Except GuardErr Unit × GuardState :=
  match findSession st sid with
  | Option.none => (.error .sessionInvalid, st)
  | some _ =>
      match appendE st ⟨now, sid, .sessionRevoked, sid, .granted⟩ with
      | some st1 => (.ok (), { st1 with sessions := st1.sessions.map (markRevoked sid) })
      | Option.none => (.error .auditWrite, st)

/-- The scope rules of spec §3: a session's privilege scope never grants
access to a record whose (attorney id, client id) pair does not match the
session's subject; `attorney-full` is restricted to the attorney who is a
party; `none` grants nothing. -/
def authorizedFor (s : Session) (a c : Nat) : Bool :=
  match s.scope with
  | Scope.none => false
  | Scope.clientOwnOnly => s.attorneyId == a && s.clientId == some c
  | Scope.attorneyFull => s.attorneyId == a

def findComm (st : GuardState) (rid : Nat) : Option PrivilegedCommunication :=
  st.comms.find? (fun r => r.recordId == rid)

/-- Logs `access_denied` and fails with `AccessDeniedError`; if the ledger
append fails the operation aborts with `AuditWriteError` instead
(fail-closed, spec §4.4/§7). -/
def logDenied (st : GuardState) (actor subject now : Nat) :
    Except GuardErr Nat × GuardState :=
  match appendE st ⟨now, actor, .accessDenied, subject, .denied⟩ with
  | some st1 => (.error .accessDenied, st1)
  | Option.none => (.error .auditWrite, st)

/-- Modelled from the spec: `read(sessionId, token, recordId)` — verifies the
session; loads the record; checks the session subject against the record's
(attorney, client) pair under the scope rules of §3; on mismatch or missing
record logs `access_denied` and fails with the single error kind
`AccessDeniedError`; on match opens the payload, logs `read_attempt` granted,
then returns the plaintext (spec §4.4). -/
def readComm (st : GuardState) (sid tok rid now : Nat) :
    Except GuardErr Nat × GuardState :=
  match verifySession st sid tok now with
  | .error e => (.error e, st)
  | .ok s =>
      match findComm st rid with
      | Option.none => logDenied st sid rid now
      | some r =>
          if authorizedFor s r.attorneyId r.clientId then
            match openSealed st.keyRegistry r.payload r.keyRef ⟨r.attorneyId, r.clientId⟩ with
            | .error e => (.error e, st)
            | .ok p =>
                match appendE st ⟨now, sid, .readAttempt, rid, .granted⟩ with
                | some st1 => (.ok p, st1)
                | Option.none => (.error .auditWrite, st)
          else logDenied st sid rid now

def findConflict (st : GuardState) (a c : Nat) : Option ConflictCheckResult :=
  st.conflictResults.find? (fun r => r.attorneyId == a && r.clientId == c)

/-- Modelled from the spec: screening-and-cache-result as a single atomic
step per (attorney, client) pair — an existing result is consulted, not
recomputed; otherwise the screener is invoked synchronously and its result
persisted; screener failure is treated as `ConflictUnresolvedError` for the
write path, storing nothing (fail-closed, spec §4.5, §5(c), §9). -/
def conflictGate (st : GuardState) (a c now : Nat)
    (screen : Except ScreenErr ScreenData) :
    Except GuardErr (ConflictCheckResult × GuardState) :=
  match findConflict st a c with
  | some r => .ok (r, st)
  | Option.none =>
      match screen with
      | .error _ => .error .conflictUnresolved
      | .ok d =>
          let r : ConflictCheckResult :=
            ⟨st.conflictResults.length, a, c, d.cleared, d.reason, now⟩
          .ok (r, { st with conflictResults := st.conflictResults ++ [r] })

/-- The caller-supplied fields of `WritePrivilegedCommunication` (spec §6). -/
structure CommInput where
  attorneyId : Nat
  clientId : Nat
  payload : Nat
  contentType : CType
deriving DecidableEq, Repr

/-- Fresh key material for a new key reference (keys are referenced, never
embedded in records; spec §4.1). -/
def keyGen (keyRef : Nat) : Nat := mix keyRef 9176

/-- Logs `conflict_check` denied and fails with `ConflictUnresolvedError`;
if the ledger append fails the operation aborts with `AuditWriteError`
(fail-closed). -/
def logConflictDenied (st : GuardState) (sid a now : Nat) :
    Except GuardErr Nat × GuardState :=
  match appendE st ⟨now, sid, .conflictCheck, a, .denied⟩ with
  | some st1 => (.error .conflictUnresolved, st1)
  | Option.none => (.error .auditWrite, st)

/-- Modelled from the spec: `write(sessionId, token, communication)` —
verifies the session; denies (logging `access_denied`) when the scope is
`none` or the supplied pair does not match the session subject; requires a
cleared ConflictCheckResult via the conflict gate; seals the payload under a
fresh key; appends the record and logs `write_attempt` granted before the
record id is returned (ledger-before-response, spec §4.4). -/
def writeComm (st : GuardState) (sid tok : Nat) (comm : CommInput) (now : Nat)
    (screen : Except ScreenErr ScreenData) : Except GuardErr Nat × GuardState :=
  match verifySession st sid tok now with
  | .error e => (.error e, st)
  | .ok s =>
      if authorizedFor s comm.attorneyId comm.clientId then
        match conflictGate st comm.attorneyId comm.clientId now screen with
        | .error _ => logConflictDenied st sid comm.attorneyId now
        | .ok (r, st1) =>
            if r.cleared then
              let keyRef := st1.nextKeyRef
              let sealed := sealPayload (keyGen keyRef) keyRef comm.payload
                ⟨comm.attorneyId, comm.clientId⟩
              let rid := st1.nextRecordId
              match appendE st1 ⟨now, sid, .writeAttempt, rid, .granted⟩ with
              | some st2 =>
                  (.ok rid,
                   { st2 with
                     comms := st2.comms ++
                       [⟨rid, comm.attorneyId, comm.clientId, now, sealed.1,
                         sealed.2, comm.contentType⟩],
                     nextRecordId := rid + 1,
                     keyRegistry := st1.keyRegistry ++ [(keyRef, keyGen keyRef)],
                     nextKeyRef := keyRef + 1 })
              | Option.none => (.error .auditWrite, st1)
            else logConflictDenied st1 sid comm.attorneyId now
      else logDenied st sid 0 now

/-- The mutating operations of the core, each carrying the environment data
(current time, token, screener response) its call supplies. -/
inductive Op where
  | create (a : Nat) (c : Option Nat) (scope : Scope) (token now ttl : Nat)
  | revoke (sid now : Nat)
  | readOp (sid tok rid now : Nat)
  | writeOp (sid tok : Nat) (comm : CommInput) (now : Nat)
      (screen : Except ScreenErr ScreenData)
  | setAudit (b : Bool)

/-- The state transition of one operation (result discarded). -/
def stepOp (st : GuardState) : Op → GuardState
  | .create a c sc tok now ttl => (createSession st a c sc tok now ttl).2
  | .revoke sid now => (revokeSession st sid now).2
  | .readOp sid tok rid now => (readComm st sid tok rid now).2
  | .writeOp sid tok comm now screen => (writeComm st sid tok comm now screen).2
  | .setAudit b => { st with auditOk := b }

/-- Runs a sequence of operations. -/
def runOps (st : GuardState) : List Op → GuardState
  | [] => st
  | op :: ops => runOps (stepOp st op) ops

/-- The empty initial state over given attorney and client rosters. -/
def initState (attorneys : List Attorney) (clients : List Client) : GuardState :=
  ⟨attorneys, clients, [], 0, [], 0, [], [], 0, [], true⟩

/-- Sessions are well-formed when every stored session's identifier is below
the fresh-id counter (so created sessions never collide with existing ones). -/
def SessionsWF (st : GuardState) : Prop :=
  ∀ s ∈ st.sessions, s.sessionId < st.nextSessionId

/-- Number of stored conflict-check results for a given pair. -/
def countConflict (st : GuardState) (a c : Nat) : Nat :=
  (st.conflictResults.filter (fun r => r.attorneyId == a && r.clientId == c)).length

/-- A demonstration state: one active attorney (id 1) with client (id 2) and
one active attorney-full session (id 0, token 99, expiring at 10). -/
def demoState : GuardState :=
  { attorneys := [⟨1, true, true⟩], clients := [⟨2, [1]⟩],
    sessions := [⟨0, 1, some 2, 99, 0, 10, false, Scope.attorneyFull⟩],
    nextSessionId := 1, comms := [], nextRecordId := 0, conflictResults := [],
    keyRegistry := [], nextKeyRef := 0, ledger := [], auditOk := true }

/-- A demonstration state extending `demoState`: a second attorney (id 4)
with client (id 3), a client-own-only session (id 1, token 77) for the pair
(4, 3), and one stored sealed record (id 0) owned by the pair (1, 2) with its
key in the registry. -/
def demoState2 : GuardState :=
  { attorneys := [⟨1, true, true⟩, ⟨4, true, true⟩],
    clients := [⟨2, [1]⟩, ⟨3, [4]⟩],
    sessions := [⟨0, 1, some 2, 99, 0, 10, false, Scope.attorneyFull⟩,
                 ⟨1, 4, some 3, 77, 0, 10, false, Scope.clientOwnOnly⟩],
    nextSessionId := 2,
    comms := [⟨0, 1, 2, 0, (sealPayload (keyGen 0) 0 5 ⟨1, 2⟩).1, 0, CType.note⟩],
    nextRecordId := 1, conflictResults := [],
    keyRegistry := [(0, keyGen 0)], nextKeyRef := 1, ledger := [], auditOk := true }

end Advisor

namespace FrontendApp

/-- The two user roles of the frontend `App` component
(src/unnamed/part_000, `userRole` state: 'attorney' or 'client'). -/
inductive Role where
  | attorney
  | client
deriving DecidableEq, Repr

/-- The view names appearing in the `App` component: the `activeView` state
values used by `renderContent` and the navigation buttons, plus 'overview'
set on switching to the client role (src/unnamed/part_000). -/
inductive View where
  | research
  | client
  | cases
  | documents
  | precedents
  | privilege
  | overview
deriving DecidableEq, Repr

/-- The components returned by `renderContent` (src/unnamed/part_000). -/
inductive Component where
  | legalResearch
  | clientPortal
  | caseAnalysis
  | documentReview
  | precedentFinder
  | privilegeMonitor
deriving DecidableEq, Repr

/-- The `App` component's state: `activeView` and `userRole`
(src/unnamed/part_000 lines 11-12). -/
structure AppState where
  activeView : View
  userRole : Role
deriving DecidableEq, Repr

/-- Initial state of `App`: `useState('research')`, `useState('attorney')`. -/
def initialAppState : AppState :=
  { activeView := View.research, userRole := Role.attorney }

/-- The `handleRoleSwitch(role)` handler from src/unnamed/part_000 lines 14-17: sets
`userRole` to `role` and `activeView` to 'research' when the role is
'attorney', else to 'overview'. -/
def handleRoleSwitch (role : Role) (st : AppState) : AppState :=
  { st with
    userRole := role
    activeView := if role = Role.attorney then View.research else View.overview }

/-- The `renderContent()` function from src/unnamed/part_000 lines 19-36: the switch over
`activeView`, with `LegalResearch` as the default branch. -/
def renderContent (v : View) : Component :=
  match v with
  | View.research => Component.legalResearch
  | View.client => Component.clientPortal
  | View.cases => Component.caseAnalysis
  | View.documents => Component.documentReview
  | View.precedents => Component.precedentFinder
  | View.privilege => Component.privilegeMonitor
  | View.overview => Component.legalResearch

/-- The attorney navigation bar is rendered exactly when
`userRole === 'attorney'` (src/unnamed/part_000 lines 64-97). -/
def attorneyNavVisible (st : AppState) : Bool :=
  st.userRole = Role.attorney

end FrontendApp

/-- C5: for every plaintext `p` and context `ctx`, if `seal(p, ctx)` returns
`(ciphertext, keyRef)` then `open(ciphertext, keyRef, ctx)` returns `p`
(provided the registry resolves `keyRef` to the sealing key), and for every
context different from `ctx`, `open` fails with `DecryptionError` rather than
returning a plaintext. -/
theorem seal_open_roundtrip_and_ctx_binding
    (reg : List (Nat × Nat)) (key keyRef p : Nat) (ctx : Advisor.Ctx)
    (hreg : Advisor.lookupKey reg keyRef = some key) :
    Advisor.openSealed reg (Advisor.sealPayload key keyRef p ctx).1 keyRef ctx = .ok p ∧
    ∀ ctx2 : Advisor.Ctx, ctx2 ≠ ctx →
      Advisor.openSealed reg (Advisor.sealPayload key keyRef p ctx).1 keyRef ctx2 =
        .error .decryptionError := by
  constructor
  · simp [Advisor.openSealed, Advisor.sealPayload, hreg]
  · intro ctx2 hne
    simp [Advisor.openSealed, Advisor.sealPayload, hreg]
    intro h
    exact absurd h.symm hne

/-- Witness for C5 at a concrete registry, key and contexts. -/
theorem seal_open_roundtrip_and_ctx_binding_witness :
    Advisor.openSealed [(7, 41)] (Advisor.sealPayload 41 7 5 ⟨1, 2⟩).1 7 ⟨1, 2⟩ = .ok 5 ∧
    Advisor.openSealed [(7, 41)] (Advisor.sealPayload 41 7 5 ⟨1, 2⟩).1 7 ⟨1, 3⟩ =
      .error .decryptionError := by
  have h := seal_open_roundtrip_and_ctx_binding [(7, 41)] 41 7 5 ⟨1, 2⟩ (by decide)
  exact ⟨h.1, h.2 ⟨1, 3⟩ (by decide)⟩

/-- C10: in the `App` component, every `handleRoleSwitch(role)` sets the
active view to 'research' when the role is 'attorney' and to 'overview'
otherwise; the attorney navigation bar is rendered exactly when the current
role is 'attorney'; hence after any switch to the 'client' role the view is
'overview' and no attorney navigation is shown. -/
theorem handleRoleSwitch_view_and_nav (st : FrontendApp.AppState) (role : FrontendApp.Role) :
    (FrontendApp.handleRoleSwitch role st).activeView =
      (if role = FrontendApp.Role.attorney then FrontendApp.View.research
       else FrontendApp.View.overview) ∧
    (FrontendApp.attorneyNavVisible st = true ↔ st.userRole = FrontendApp.Role.attorney) ∧
    (FrontendApp.handleRoleSwitch FrontendApp.Role.client st).activeView =
      FrontendApp.View.overview ∧
    FrontendApp.attorneyNavVisible (FrontendApp.handleRoleSwitch FrontendApp.Role.client st) =
      false := by
  refine ⟨rfl, ?_, rfl, rfl⟩
  simp [FrontendApp.attorneyNavVisible]

namespace Advisor

/-- Appending an entry with the next sequence number, the chain's last hash
as previous hash, and a recomputed hash preserves chain validity. -/
theorem chainOk_snoc (l : List AuditEntry) (p s : Nat) (e : AuditEntry)
    (h : chainOk p s l = true)
    (hseq : e.seq = s + l.length)
    (hprev : e.prevHash = lastD p l)
    (hhash : e.hash = entryHash (lastD p l) (s + l.length) (entryData e)) :
    chainOk p s (l ++ [e]) = true := by
  induction l generalizing p s with
  | nil =>
      have h1 : e.seq = s := by simpa using hseq
      have h2 : e.prevHash = p := by simpa [lastD] using hprev
      have h3 : e.hash = entryHash p s (entryData e) := by simpa [lastD] using hhash
      simp [chainOk, h1, h2, h3]
  | cons e0 rest ih =>
      simp only [chainOk, Bool.and_eq_true, decide_eq_true_eq] at h
      obtain ⟨⟨⟨h1, h2⟩, h3⟩, h4⟩ := h
      simp only [List.cons_append, chainOk, Bool.and_eq_true, decide_eq_true_eq]
      refine ⟨⟨⟨h1, h2⟩, h3⟩, ?_⟩
      refine ih e0.hash (s + 1) h4 ?_ ?_ ?_
      · simp only [List.length_cons] at hseq
        omega
      · simpa [lastD] using hprev
      · have hl : s + (e0 :: rest).length = s + 1 + rest.length := by
          simp only [List.length_cons]
          omega
        rw [← hl]
        simpa [lastD] using hhash

/-- Appending the Ledger's own next entry preserves chain validity. -/
theorem chainOk_append_mkEntry (l : List AuditEntry) (d : EntryData)
    (h : chainOk 0 0 l = true) :
    chainOk 0 0 (l ++ [mkEntry l d]) = true := by
  refine chainOk_snoc l 0 0 (mkEntry l d) h ?_ ?_ ?_
  · simp [mkEntry]
  · rfl
  · simp [mkEntry, entryData, entryHash]

/-- In a valid chain segment starting at `s`, the entry at position `i`
carries sequence number `s + i`. -/
theorem chainOk_seq (l : List AuditEntry) (p s : Nat) (h : chainOk p s l = true) :
    ∀ i (hi : i < l.length), (l.get ⟨i, hi⟩).seq = s + i := by
  induction l generalizing p s with
  | nil => intro i hi; simp at hi
  | cons e rest ih =>
      simp only [chainOk, Bool.and_eq_true, decide_eq_true_eq] at h
      obtain ⟨⟨⟨h1, _⟩, _⟩, h4⟩ := h
      intro i hi
      cases i with
      | zero => simpa using h1
      | succ j =>
          have hj : j < rest.length := by simpa using hi
          have := ih e.hash (s + 1) h4 j hj
          simp only [List.get_cons_succ] at *
          omega

/-- A valid chain stays valid when truncated. -/
theorem chainOk_take (l : List AuditEntry) (p s n : Nat) (h : chainOk p s l = true) :
    chainOk p s (l.take n) = true := by
  induction l generalizing p s n with
  | nil => simp [chainOk]
  | cons e rest ih =>
      cases n with
      | zero => simp [chainOk]
      | succ m =>
          simp only [chainOk, Bool.and_eq_true, decide_eq_true_eq] at h
          obtain ⟨⟨⟨h1, h2⟩, h3⟩, h4⟩ := h
          simp only [List.take_succ_cons, chainOk, Bool.and_eq_true, decide_eq_true_eq]
          exact ⟨⟨⟨h1, h2⟩, h3⟩, ih e.hash (s + 1) m h4⟩

/-- A valid chain stays valid from any starting index, anchored at the hash
of the preceding entry. -/
theorem chainOk_drop (l : List AuditEntry) (p s : Nat) (h : chainOk p s l = true) :
    ∀ n, chainOk (chainAnchor p l n) (s + n) (l.drop n) = true := by
  induction l generalizing p s with
  | nil => intro n; cases n <;> simp [chainOk, chainAnchor]
  | cons e rest ih =>
      simp only [chainOk, Bool.and_eq_true, decide_eq_true_eq] at h
      obtain ⟨⟨⟨h1, h2⟩, h3⟩, h4⟩ := h
      intro n
      cases n with
      | zero =>
          simp only [chainAnchor, List.drop_zero, Nat.add_zero]
          simp only [chainOk, Bool.and_eq_true, decide_eq_true_eq]
          exact ⟨⟨⟨h1, h2⟩, h3⟩, h4⟩
      | succ m =>
          have hrec := ih e.hash (s + 1) h4 m
          have hs : s + 1 + m = s + (m + 1) := by omega
          rw [hs] at hrec
          have hanchor : chainAnchor p (e :: rest) (m + 1) = chainAnchor e.hash rest m ∨
              rest.drop m = [] := by
            cases m with
            | zero => left; simp [chainAnchor]
            | succ k =>
                simp only [chainAnchor, List.get?_cons_succ]
                cases hg : rest.get? k with
                | none =>
                    right
                    have : rest.length ≤ k := List.get?_eq_none.mp hg
                    exact List.drop_eq_nil_of_le (by omega)
                | some e2 => left; rfl
          rcases hanchor with heq | hnil
          · rw [List.drop_succ_cons, heq]
            exact hrec
          · rw [List.drop_succ_cons, hnil]
            simp [chainOk]

/-- A fully valid ledger passes `verifyChain` over every range. -/
theorem verifyChain_of_chainOk (l : List AuditEntry) (h : chainOk 0 0 l = true)
    (lo len : Nat) : verifyChain l lo len = true := by
  have hd := chainOk_drop l 0 0 h lo
  rw [Nat.zero_add] at hd
  exact chainOk_take _ _ _ _ hd

/-- Characterization of a successful ledger append. -/
theorem appendE_eq_some (st : GuardState) (d : EntryData) (st1 : GuardState) :
    appendE st d = some st1 ↔
      (st.auditOk = true ∧
       st1 = { st with ledger := st.ledger ++ [mkEntry st.ledger d] }) := by
  simp only [appendE]
  by_cases hA : st.auditOk
  · simp [hA, eq_comm]
  · simp [hA]

/-- A ledger append fails exactly when the audit store is unavailable. -/
theorem appendE_eq_none (st : GuardState) (d : EntryData) :
    appendE st d = Option.none ↔ st.auditOk = false := by
  simp only [appendE]
  by_cases hA : st.auditOk
  · simp [hA]
  · simp [hA]

/-- Rewriting equation for `logDenied`. -/
theorem logDenied_eq (st : GuardState) (actor subject now : Nat) :
    logDenied st actor subject now =
      if st.auditOk then
        (.error .accessDenied,
         { st with ledger := st.ledger ++
             [mkEntry st.ledger ⟨now, actor, .accessDenied, subject, .denied⟩] })
      else (.error .auditWrite, st) := by
  simp only [logDenied, appendE]
  by_cases hA : st.auditOk <;> simp [hA]

/-- Rewriting equation for `logConflictDenied`. -/
theorem logConflictDenied_eq (st : GuardState) (sid a now : Nat) :
    logConflictDenied st sid a now =
      if st.auditOk then
        (.error .conflictUnresolved,
         { st with ledger := st.ledger ++
             [mkEntry st.ledger ⟨now, sid, .conflictCheck, a, .denied⟩] })
      else (.error .auditWrite, st) := by
  simp only [logConflictDenied, appendE]
  by_cases hA : st.auditOk <;> simp [hA]

/-- A successful conflict gate changes at most the stored conflict results. -/
theorem conflictGate_ok_shape (st : GuardState) (a c now : Nat)
    (screen : Except ScreenErr ScreenData) (r : ConflictCheckResult) (st1 : GuardState)
    (h : conflictGate st a c now screen = .ok (r, st1)) :
    ∃ crs, st1 = { st with conflictResults := crs } := by
  unfold conflictGate at h
  split at h
  · exact ⟨st.conflictResults, by injection h with h2; cases h2; rfl⟩
  · split at h
    · exact absurd h (by simp)
    · injection h with h2
      injection h2 with hr hst
      subst hr
      exact ⟨_, hst.symm⟩

/-- A read leaves the state unchanged except for appending at most one
audit entry. -/
theorem readComm_state (st : GuardState) (sid tok rid now : Nat) :
    (readComm st sid tok rid now).2 = st ∨
    ∃ d, (readComm st sid tok rid now).2 =
      { st with ledger := st.ledger ++ [mkEntry st.ledger d] } := by
  simp only [readComm]
  split
  · left; rfl
  · split
    · rw [logDenied_eq]
      split
      · right; exact ⟨_, rfl⟩
      · left; rfl
    · split
      · split
        · left; rfl
        · split
          next st1 heq =>
            rcases (appendE_eq_some st _ st1).mp heq with ⟨_, rfl⟩
            right; exact ⟨_, rfl⟩
          next => left; rfl
      · rw [logDenied_eq]
        split
        · right; exact ⟨_, rfl⟩
        · left; rfl

/-- A write appends at most one audit entry to the ledger, computed over the
pre-state's ledger. -/
theorem writeComm_ledger (st : GuardState) (sid tok : Nat) (comm : CommInput)
    (now : Nat) (screen : Except ScreenErr ScreenData) :
    (writeComm st sid tok comm now screen).2.ledger = st.ledger ∨
    ∃ d, (writeComm st sid tok comm now screen).2.ledger =
      st.ledger ++ [mkEntry st.ledger d] := by
  simp only [writeComm]
  split
  · left; rfl
  · split
    · split
      · rw [logConflictDenied_eq]
        split
        · right; exact ⟨_, rfl⟩
        · left; rfl
      · next r st1 heq =>
          rcases conflictGate_ok_shape st comm.attorneyId comm.clientId now screen r st1 heq
            with ⟨crs, rfl⟩
          split
          · split
            next st2 heq2 =>
              rcases (appendE_eq_some _ _ st2).mp heq2 with ⟨_, rfl⟩
              right; exact ⟨_, rfl⟩
            next => left; rfl
          · rw [logConflictDenied_eq]
            split
            · right; exact ⟨_, rfl⟩
            · left; rfl
    · rw [logDenied_eq]
      split
      · right; exact ⟨_, rfl⟩
      · left; rfl

/-- A write never changes the session store, the session counter, the audit
availability, or the rosters. -/
theorem writeComm_preserves (st : GuardState) (sid tok : Nat) (comm : CommInput)
    (now : Nat) (screen : Except ScreenErr ScreenData) :
    (writeComm st sid tok comm now screen).2.sessions = st.sessions ∧
    (writeComm st sid tok comm now screen).2.nextSessionId = st.nextSessionId ∧
    (writeComm st sid tok comm now screen).2.auditOk = st.auditOk := by
  simp only [writeComm]
  split
  · exact ⟨rfl, rfl, rfl⟩
  · split
    · split
      · rw [logConflictDenied_eq]
        split
        · exact ⟨rfl, rfl, rfl⟩
        · exact ⟨rfl, rfl, rfl⟩
      · next r st1 heq =>
          rcases conflictGate_ok_shape st comm.attorneyId comm.clientId now screen r st1 heq
            with ⟨crs, rfl⟩
          split
          · split
            next st2 heq2 =>
              rcases (appendE_eq_some _ _ st2).mp heq2 with ⟨_, rfl⟩
              exact ⟨rfl, rfl, rfl⟩
            next => exact ⟨rfl, rfl, rfl⟩
          · rw [logConflictDenied_eq]
            split
            · exact ⟨rfl, rfl, rfl⟩
            · exact ⟨rfl, rfl, rfl⟩
    · rw [logDenied_eq]
      split
      · exact ⟨rfl, rfl, rfl⟩
      · exact ⟨rfl, rfl, rfl⟩

/-- A create either leaves the state unchanged or appends one audit entry and
one fresh session carrying the fresh-id counter. -/
theorem createSession_state (st : GuardState) (a : Nat) (c : Option Nat)
    (sc : Scope) (tok now ttl : Nat) :
    (createSession st a c sc tok now ttl).2 = st ∨
    ∃ s1 d, s1.sessionId = st.nextSessionId ∧
      (createSession st a c sc tok now ttl).2 =
        { st with ledger := st.ledger ++ [mkEntry st.ledger d],
                  sessions := st.sessions ++ [s1],
                  nextSessionId := st.nextSessionId + 1 } := by
  simp only [createSession]
  split
  · split
    next st1 heq =>
      rcases (appendE_eq_some st _ st1).mp heq with ⟨_, rfl⟩
      right
      exact ⟨_, _, rfl, rfl⟩
    next => left; rfl
  · left; rfl

/-- A revoke either leaves the state unchanged or appends one audit entry and
marks the matching session revoked. -/
theorem revokeSession_state (st : GuardState) (sid now : Nat) :
    (revokeSession st sid now).2 = st ∨
    ∃ d, (revokeSession st sid now).2 =
      { st with ledger := st.ledger ++ [mkEntry st.ledger d],
                sessions := st.sessions.map (markRevoked sid) } := by
  simp only [revokeSession]
  split
  · left; rfl
  · split
    next st1 heq =>
      rcases (appendE_eq_some st _ st1).mp heq with ⟨_, rfl⟩
      right
      exact ⟨_, rfl⟩
    next => left; rfl

/-- Each operation either preserves the ledger or appends exactly one
Ledger-formed entry: append is the single mutation of the Audit Ledger. -/
theorem stepOp_ledger (st : GuardState) (op : Op) :
    (stepOp st op).ledger = st.ledger ∨
    ∃ d, (stepOp st op).ledger = st.ledger ++ [mkEntry st.ledger d] := by
  cases op with
  | create a c sc tok now ttl =>
      rcases createSession_state st a c sc tok now ttl with h | ⟨s1, d, _, h⟩
      · left; simp [stepOp, h]
      · right; exact ⟨d, by simp [stepOp, h]⟩
  | revoke sid now =>
      rcases revokeSession_state st sid now with h | ⟨d, h⟩
      · left; simp [stepOp, h]
      · right; exact ⟨d, by simp [stepOp, h]⟩
  | readOp sid tok rid now =>
      rcases readComm_state st sid tok rid now with h | ⟨d, h⟩
      · left; simp [stepOp, h]
      · right; exact ⟨d, by simp [stepOp, h]⟩
  | writeOp sid tok comm now screen =>
      exact writeComm_ledger st sid tok comm now screen
  | setAudit b => left; rfl

/-- The session store changes only by appending a fresh session or by marking
sessions revoked; the fresh-id counter never decreases. -/
theorem stepOp_sessions (st : GuardState) (op : Op) :
    ((stepOp st op).sessions = st.sessions ∧
     (stepOp st op).nextSessionId = st.nextSessionId) ∨
    (∃ s1, s1.sessionId = st.nextSessionId ∧
      (stepOp st op).sessions = st.sessions ++ [s1] ∧
      (stepOp st op).nextSessionId = st.nextSessionId + 1) ∨
    (∃ sid, (stepOp st op).sessions = st.sessions.map (markRevoked sid) ∧
      (stepOp st op).nextSessionId = st.nextSessionId) := by
  cases op with
  | create a c sc tok now ttl =>
      rcases createSession_state st a c sc tok now ttl with h | ⟨s1, d, hid, h⟩
      · left; simp [stepOp, h]
      · right; left; exact ⟨s1, hid, by simp [stepOp, h], by simp [stepOp, h]⟩
  | revoke sid now =>
      rcases revokeSession_state st sid now with h | ⟨d, h⟩
      · left; simp [stepOp, h]
      · right; right; exact ⟨sid, by simp [stepOp, h], by simp [stepOp, h]⟩
  | readOp sid tok rid now =>
      rcases readComm_state st sid tok rid now with h | ⟨d, h⟩
      · left; simp [stepOp, h]
      · left; simp [stepOp, h]
  | writeOp sid tok comm now screen =>
      left
      exact ⟨(writeComm_preserves st sid tok comm now screen).1,
             (writeComm_preserves st sid tok comm now screen).2.1⟩
  | setAudit b => left; exact ⟨rfl, rfl⟩

/-- Revocation marking never changes a session's identifier. -/
theorem markRevoked_sessionId (sid : Nat) (t : Session) :
    (markRevoked sid t).sessionId = t.sessionId := by
  unfold markRevoked
  split <;> rfl

/-- Revocation marking never clears the revoked flag. -/
theorem markRevoked_keeps_revoked (sid : Nat) (t : Session) (h : t.revoked = true) :
    (markRevoked sid t).revoked = true := by
  unfold markRevoked
  split
  · rfl
  · exact h

/-- Searching by session id commutes with revocation marking. -/
theorem find?_map_markRevoked (l : List Session) (sid sid2 : Nat) :
    (l.map (markRevoked sid2)).find? (fun t => t.sessionId == sid) =
      Option.map (markRevoked sid2) (l.find? (fun t => t.sessionId == sid)) := by
  induction l with
  | nil => rfl
  | cons t rest ih =>
      simp only [List.map_cons, List.find?]
      rw [markRevoked_sessionId]
      cases hp : t.sessionId == sid with
      | true => rfl
      | false => exact ih

/-- A revoked session stays findable and revoked across any single
operation. -/
theorem stepOp_keeps_revoked (st : GuardState) (op : Op) (sid : Nat) (s : Session)
    (hf : findSession st sid = some s) (hr : s.revoked = true) :
    ∃ s2, findSession (stepOp st op) sid = some s2 ∧ s2.revoked = true := by
  rcases stepOp_sessions st op with ⟨h1, _⟩ | ⟨s1, _, h1, _⟩ | ⟨sid2, h1, _⟩
  · exact ⟨s, by rw [findSession, h1]; exact hf, hr⟩
  · refine ⟨s, ?_, hr⟩
    rw [findSession, h1, List.find?_append]
    rw [findSession] at hf
    rw [hf]
    rfl
  · refine ⟨markRevoked sid2 s, ?_, markRevoked_keeps_revoked sid2 s hr⟩
    rw [findSession, h1, find?_map_markRevoked]
    rw [findSession] at hf
    rw [hf]
    rfl

/-- A revoked session stays findable and revoked across any sequence of
operations. -/
theorem runOps_keeps_revoked (st : GuardState) (ops : List Op) (sid : Nat) (s : Session)
    (hf : findSession st sid = some s) (hr : s.revoked = true) :
    ∃ s2, findSession (runOps st ops) sid = some s2 ∧ s2.revoked = true := by
  induction ops generalizing st s with
  | nil => exact ⟨s, hf, hr⟩
  | cons op rest ih =>
      rcases stepOp_keeps_revoked st op sid s hf hr with ⟨s2, hf2, hr2⟩
      exact ih (stepOp st op) s2 hf2 hr2

/-- Verification of a revoked session fails, whatever the token and time. -/
theorem verifySession_of_revoked (st : GuardState) (sid tok now : Nat) (s : Session)
    (hf : findSession st sid = some s) (hr : s.revoked = true) :
    verifySession st sid tok now = .error .sessionInvalid := by
  simp only [verifySession, hf]
  rw [if_neg]
  rintro ⟨-, h2, -⟩
  rw [hr] at h2
  cases h2

/-- A successful revoke leaves the session stored as revoked. -/
theorem revokeSession_ok_revoked (st : GuardState) (sid now : Nat)
    (h : (revokeSession st sid now).1 = .ok ()) :
    ∃ s2, findSession (revokeSession st sid now).2 sid = some s2 ∧
      s2.revoked = true := by
  cases hfs : findSession st sid with
  | none => simp [revokeSession, hfs] at h
  | some s0 =>
      cases ha : appendE st ⟨now, sid, .sessionRevoked, sid, .granted⟩ with
      | none => simp [revokeSession, hfs, ha] at h
      | some st1 =>
          rcases (appendE_eq_some st _ st1).mp ha with ⟨_, rfl⟩
          have hfs2 : List.find? (fun s => s.sessionId == sid) st.sessions = some s0 := hfs
          have hpred : (s0.sessionId == sid) = true := by
            simpa using List.find?_some hfs2
          refine ⟨markRevoked sid s0, ?_, ?_⟩
          · simp only [revokeSession, findSession, hfs2, ha]
            rw [find?_map_markRevoked, hfs2]
            rfl
          · unfold markRevoked
            rw [if_pos hpred]

/-- A run of operations preserves ledger chain validity. -/
theorem runOps_chainOk (st : GuardState) (ops : List Op)
    (h : chainOk 0 0 st.ledger = true) :
    chainOk 0 0 (runOps st ops).ledger = true := by
  induction ops generalizing st with
  | nil => exact h
  | cons op rest ih =>
      show chainOk 0 0 (runOps (stepOp st op) rest).ledger = true
      apply ih
      rcases stepOp_ledger st op with h1 | ⟨d, h1⟩
      · rw [h1]; exact h
      · rw [h1]; exact chainOk_append_mkEntry st.ledger d h

/-- A run of operations only ever extends the ledger: no entry is updated or
deleted. -/
theorem runOps_ledger_extends (st : GuardState) (ops : List Op) :
    ∃ tail, (runOps st ops).ledger = st.ledger ++ tail := by
  induction ops generalizing st with
  | nil => exact ⟨[], by simp [runOps]⟩
  | cons op rest ih =>
      rcases ih (stepOp st op) with ⟨tail2, h2⟩
      rcases stepOp_ledger st op with h1 | ⟨d, h1⟩
      · refine ⟨tail2, ?_⟩
        show (runOps (stepOp st op) rest).ledger = st.ledger ++ tail2
        rw [h2, h1]
      · refine ⟨mkEntry st.ledger d :: tail2, ?_⟩
        show (runOps (stepOp st op) rest).ledger = st.ledger ++ (mkEntry st.ledger d :: tail2)
        rw [h2, h1]
        simp

/-- C2: for every reachable state of the Audit Ledger, the entry sequence
numbers form a contiguous, strictly increasing order with no duplicates and
no gaps, every entry's hash chains to the previous entry's hash so that
`verifyChain` succeeds over any range, and no operation ever updates or
deletes an existing entry — the ledger is only ever extended by appends. -/
theorem auditLedger_append_only_ordered (st : Advisor.GuardState) (ops : List Advisor.Op)
    (h : Advisor.chainOk 0 0 st.ledger = true) :
    Advisor.chainOk 0 0 (Advisor.runOps st ops).ledger = true ∧
    (∀ lo len, Advisor.verifyChain (Advisor.runOps st ops).ledger lo len = true) ∧
    (∀ i (hi : i < (Advisor.runOps st ops).ledger.length),
      ((Advisor.runOps st ops).ledger.get ⟨i, hi⟩).seq = i) ∧
    (∀ i j (hi : i < (Advisor.runOps st ops).ledger.length)
       (hj : j < (Advisor.runOps st ops).ledger.length), i < j →
      ((Advisor.runOps st ops).ledger.get ⟨i, hi⟩).seq <
        ((Advisor.runOps st ops).ledger.get ⟨j, hj⟩).seq) ∧
    (∃ tail, (Advisor.runOps st ops).ledger = st.ledger ++ tail) := by
  have hc := Advisor.runOps_chainOk st ops h
  refine ⟨hc, Advisor.verifyChain_of_chainOk _ hc, ?_, ?_,
    Advisor.runOps_ledger_extends st ops⟩
  · intro i hi
    have := Advisor.chainOk_seq _ 0 0 hc i hi
    simpa using this
  · intro i j hi hj hij
    have h1 := Advisor.chainOk_seq _ 0 0 hc i hi
    have h2 := Advisor.chainOk_seq _ 0 0 hc j hj
    omega

/-- Witness for C2 on a concrete two-operation run. -/
theorem auditLedger_append_only_ordered_witness :
    Advisor.chainOk 0 0 (Advisor.runOps Advisor.demoState
      [Advisor.Op.create 1 (some 2) Advisor.Scope.attorneyFull 55 0 10,
       Advisor.Op.revoke 0 5]).ledger = true ∧
    Advisor.verifyChain (Advisor.runOps Advisor.demoState
      [Advisor.Op.create 1 (some 2) Advisor.Scope.attorneyFull 55 0 10,
       Advisor.Op.revoke 0 5]).ledger 1 1 = true :=
  ⟨(auditLedger_append_only_ordered Advisor.demoState
      [Advisor.Op.create 1 (some 2) Advisor.Scope.attorneyFull 55 0 10,
       Advisor.Op.revoke 0 5] rfl).1,
   (auditLedger_append_only_ordered Advisor.demoState
      [Advisor.Op.create 1 (some 2) Advisor.Scope.attorneyFull 55 0 10,
       Advisor.Op.revoke 0 5] rfl).2.1 1 1⟩

/-- C4: once `revoke(s)` has returned successfully, every subsequent
`verify(s, t)` — for any token, any time, and after any further sequence of
operations — fails with `SessionInvalidError`: Revoked is a terminal state
that is never reactivated. -/
theorem revoke_terminal (st : Advisor.GuardState) (sid now : Nat)
    (h : (Advisor.revokeSession st sid now).1 = .ok ()) :
    ∀ (ops : List Advisor.Op) (tok now2 : Nat),
      Advisor.verifySession (Advisor.runOps (Advisor.revokeSession st sid now).2 ops)
        sid tok now2 = .error .sessionInvalid := by
  intro ops tok now2
  rcases Advisor.revokeSession_ok_revoked st sid now h with ⟨s2, hf, hr⟩
  rcases Advisor.runOps_keeps_revoked _ ops sid s2 hf hr with ⟨s3, hf3, hr3⟩
  exact Advisor.verifySession_of_revoked _ sid tok now2 s3 hf3 hr3

/-- Witness for C4: revoking the demo session, then creating another session,
leaves verification of the revoked session failing even with the right token
before expiry. -/
theorem revoke_terminal_witness :
    Advisor.verifySession (Advisor.runOps (Advisor.revokeSession Advisor.demoState 0 5).2
      [Advisor.Op.create 1 (some 2) Advisor.Scope.attorneyFull 55 6 10]) 0 99 7 =
      .error .sessionInvalid :=
  revoke_terminal Advisor.demoState 0 5 rfl
    [Advisor.Op.create 1 (some 2) Advisor.Scope.attorneyFull 55 6 10] 99 7

/-- C6: session verification takes a session id and a token and succeeds
exactly when the session is found, the supplied token matches, the session is
not revoked, and the current time supplied at the call is before the expiry
time (expiry is evaluated against the call-time clock, not a stored
transition); every failure is `SessionInvalidError`. -/
theorem verifySession_validity (st : Advisor.GuardState) (sid tok now : Nat) :
    (∀ s, Advisor.verifySession st sid tok now = .ok s ↔
      (Advisor.findSession st sid = some s ∧ s.token = tok ∧ s.revoked = false ∧
        now < s.expiresAt)) ∧
    (∀ e, Advisor.verifySession st sid tok now = .error e →
      e = Advisor.GuardErr.sessionInvalid) := by
  constructor
  · intro s
    constructor
    · intro h
      cases hfs : Advisor.findSession st sid with
      | none => simp [Advisor.verifySession, hfs] at h
      | some s0 =>
          simp only [Advisor.verifySession, hfs] at h
          by_cases hc : s0.token = tok ∧ s0.revoked = false ∧ now < s0.expiresAt
          · rw [if_pos hc] at h
            injection h with h2
            subst h2
            exact ⟨rfl, hc⟩
          · rw [if_neg hc] at h
            cases h
    · rintro ⟨hfs, h1, h2, h3⟩
      simp only [Advisor.verifySession, hfs]
      rw [if_pos ⟨h1, h2, h3⟩]
  · intro e h
    cases hfs : Advisor.findSession st sid with
    | none =>
        simp only [Advisor.verifySession, hfs] at h
        injection h with h2
        exact h2.symm
    | some s0 =>
        simp only [Advisor.verifySession, hfs] at h
        by_cases hc : s0.token = tok ∧ s0.revoked = false ∧ now < s0.expiresAt
        · rw [if_pos hc] at h
          cases h
        · rw [if_neg hc] at h
          injection h with h2
          exact h2.symm

/-- Witness for C6: the demo session verifies with its own token before
expiry, and fails with a mismatched token. -/
theorem verifySession_validity_witness :
    Advisor.verifySession Advisor.demoState 0 99 5 =
      .ok ⟨0, 1, some 2, 99, 0, 10, false, Advisor.Scope.attorneyFull⟩ ∧
    Advisor.GuardErr.sessionInvalid = Advisor.GuardErr.sessionInvalid :=
  ⟨((verifySession_validity Advisor.demoState 0 99 5).1 _).mpr
      ⟨rfl, rfl, rfl, by decide⟩,
   (verifySession_validity Advisor.demoState 0 98 5).2
      Advisor.GuardErr.sessionInvalid rfl⟩

/-- What a successful authorization check implies about the session's scope
and the record's pair. -/
theorem authorizedFor_spec (s : Advisor.Session) (a c : Nat)
    (h : Advisor.authorizedFor s a c = true) :
    s.scope ≠ Advisor.Scope.none ∧
    (s.scope = Advisor.Scope.clientOwnOnly →
      s.attorneyId = a ∧ s.clientId = some c) ∧
    (s.scope = Advisor.Scope.attorneyFull → s.attorneyId = a) := by
  cases hs : s.scope with
  | none => simp only [Advisor.authorizedFor, hs] at h; cases h
  | clientOwnOnly =>
      simp only [Advisor.authorizedFor, hs, Bool.and_eq_true, beq_iff_eq] at h
      refine ⟨by simp [hs], fun _ => ⟨h.1, h.2⟩, fun hcon => ?_⟩
      cases hcon
  | attorneyFull =>
      simp only [Advisor.authorizedFor, hs, beq_iff_eq] at h
      refine ⟨by simp [hs], fun hcon => ?_, fun _ => h⟩
      cases hcon

/-- A client-own-only session is not authorized for a record of a different
(attorney, client) pair. -/
theorem authorizedFor_clientOwn_false (s : Advisor.Session) (a c : Nat)
    (hs : s.scope = Advisor.Scope.clientOwnOnly)
    (h : ¬(s.attorneyId = a ∧ s.clientId = some c)) :
    Advisor.authorizedFor s a c = false := by
  simp only [Advisor.authorizedFor, hs]
  cases hx : s.attorneyId == a with
  | false => simp
  | true =>
      cases hy : s.clientId == some c with
      | false => simp
      | true => exact absurd ⟨by simpa using hx, by simpa using hy⟩ h

/-- An attorney-full session is not authorized for a record of another
attorney. -/
theorem authorizedFor_attorneyFull_false (s : Advisor.Session) (a c : Nat)
    (hs : s.scope = Advisor.Scope.attorneyFull)
    (h : s.attorneyId ≠ a) :
    Advisor.authorizedFor s a c = false := by
  simp only [Advisor.authorizedFor, hs]
  simpa using h

/-- Both denial situations of a read — record missing, or record present but
outside the session's scope — log `access_denied` and fail with
`AccessDeniedError`. -/
theorem readComm_denied (st : Advisor.GuardState) (sid tok rid now : Nat)
    (s : Advisor.Session)
    (hA : st.auditOk = true)
    (hv : Advisor.verifySession st sid tok now = .ok s)
    (hd : Advisor.findComm st rid = Option.none ∨
          ∃ r, Advisor.findComm st rid = some r ∧
            Advisor.authorizedFor s r.attorneyId r.clientId = false) :
    (Advisor.readComm st sid tok rid now).1 =
      .error Advisor.GuardErr.accessDenied := by
  rcases hd with hfc | ⟨r, hfc, hauth⟩
  · simp only [Advisor.readComm, hv, hfc]
    rw [Advisor.logDenied_eq, if_pos hA]
  · simp only [Advisor.readComm, hv, hfc]
    rw [if_neg (by simp [hauth]), Advisor.logDenied_eq, if_pos hA]

/-- C1: a read succeeds only when the session's subject matches the record's
(attorney id, client id) pair under the scope rules — `client-own-only` only
for its own pair, `attorney-full` only for records in which that attorney is
a party, `none` never; for a valid record id outside the session's scope the
read fails with `AccessDeniedError`; and a session may read a record its
scope covers. -/
theorem read_scope_enforcement (st : Advisor.GuardState) (sid tok rid now : Nat) :
    (∀ p, (Advisor.readComm st sid tok rid now).1 = .ok p →
      ∃ s r, Advisor.verifySession st sid tok now = .ok s ∧
        Advisor.findComm st rid = some r ∧
        Advisor.authorizedFor s r.attorneyId r.clientId = true ∧
        s.scope ≠ Advisor.Scope.none ∧
        (s.scope = Advisor.Scope.clientOwnOnly →
          s.attorneyId = r.attorneyId ∧ s.clientId = some r.clientId) ∧
        (s.scope = Advisor.Scope.attorneyFull → s.attorneyId = r.attorneyId)) ∧
    (∀ s r, st.auditOk = true →
      Advisor.verifySession st sid tok now = .ok s →
      Advisor.findComm st rid = some r →
      s.scope = Advisor.Scope.clientOwnOnly →
      ¬(s.attorneyId = r.attorneyId ∧ s.clientId = some r.clientId) →
      (Advisor.readComm st sid tok rid now).1 =
        .error Advisor.GuardErr.accessDenied) ∧
    (∀ s r, st.auditOk = true →
      Advisor.verifySession st sid tok now = .ok s →
      Advisor.findComm st rid = some r →
      s.scope = Advisor.Scope.attorneyFull → s.attorneyId ≠ r.attorneyId →
      (Advisor.readComm st sid tok rid now).1 =
        .error Advisor.GuardErr.accessDenied) ∧
    (∀ s r p, st.auditOk = true →
      Advisor.verifySession st sid tok now = .ok s →
      Advisor.findComm st rid = some r →
      Advisor.authorizedFor s r.attorneyId r.clientId = true →
      Advisor.openSealed st.keyRegistry r.payload r.keyRef
        ⟨r.attorneyId, r.clientId⟩ = .ok p →
      (Advisor.readComm st sid tok rid now).1 = .ok p) := by
  refine ⟨?_, ?_, ?_, ?_⟩
  · intro p h
    cases hv : Advisor.verifySession st sid tok now with
    | error e => simp only [Advisor.readComm, hv] at h; cases h
    | ok s =>
        cases hfc : Advisor.findComm st rid with
        | none =>
            simp only [Advisor.readComm, hv, hfc] at h
            rw [Advisor.logDenied_eq] at h
            split_ifs at h
        | some r =>
            simp only [Advisor.readComm, hv, hfc] at h
            cases hauth : Advisor.authorizedFor s r.attorneyId r.clientId with
            | false =>
                rw [if_neg (by simp [hauth]), Advisor.logDenied_eq] at h
                split_ifs at h
            | true =>
                rcases authorizedFor_spec s r.attorneyId r.clientId hauth
                  with ⟨g1, g2, g3⟩
                exact ⟨s, r, rfl, rfl, hauth, g1, g2, g3⟩
  · intro s r hA hv hfc hs hmis
    exact readComm_denied st sid tok rid now s hA hv
      (Or.inr ⟨r, hfc,
        authorizedFor_clientOwn_false s r.attorneyId r.clientId hs hmis⟩)
  · intro s r hA hv hfc hs hne
    exact readComm_denied st sid tok rid now s hA hv
      (Or.inr ⟨r, hfc,
        authorizedFor_attorneyFull_false s r.attorneyId r.clientId hs hne⟩)
  · intro s r p hA hv hfc hauth hopen
    simp only [Advisor.readComm, hv, hfc]
    rw [if_pos hauth]
    simp only [hopen]
    have ha : Advisor.appendE st ⟨now, sid, .readAttempt, rid, .granted⟩ =
        some { st with ledger := st.ledger ++
          [Advisor.mkEntry st.ledger ⟨now, sid, .readAttempt, rid, .granted⟩] } :=
      (Advisor.appendE_eq_some st _ _).mpr ⟨hA, rfl⟩
    simp only [ha]

/-- Witness for C1: in the demo state the client-own-only session for the
pair (4, 3) is denied on the record of pair (1, 2), while the attorney-full
session of attorney 1 reads it back in plaintext. -/
theorem read_scope_enforcement_witness :
    (Advisor.readComm Advisor.demoState2 1 77 0 5).1 =
      .error Advisor.GuardErr.accessDenied ∧
    (Advisor.readComm Advisor.demoState2 0 99 0 5).1 = .ok 5 :=
  ⟨(read_scope_enforcement Advisor.demoState2 1 77 0 5).2.1 _ _ rfl rfl rfl rfl
      (by decide),
   (read_scope_enforcement Advisor.demoState2 0 99 0 5).2.2.2 _ _ 5 rfl rfl rfl
      rfl rfl⟩

/-- C8: a denied read whose record id does not exist and a denied read whose
record exists but lies outside the session's authorization produce the same
single caller-visible error kind, `AccessDeniedError`, so a caller cannot
distinguish "not found" from "forbidden". -/
theorem denial_uniformity (st : Advisor.GuardState) (sid tok rid1 rid2 now : Nat)
    (s : Advisor.Session) (r : Advisor.PrivilegedCommunication)
    (hA : st.auditOk = true)
    (hv : Advisor.verifySession st sid tok now = .ok s)
    (h1 : Advisor.findComm st rid1 = Option.none)
    (h2 : Advisor.findComm st rid2 = some r)
    (hauth : Advisor.authorizedFor s r.attorneyId r.clientId = false) :
    (Advisor.readComm st sid tok rid1 now).1 =
      .error Advisor.GuardErr.accessDenied ∧
    (Advisor.readComm st sid tok rid2 now).1 =
      .error Advisor.GuardErr.accessDenied ∧
    (Advisor.readComm st sid tok rid1 now).1 =
      (Advisor.readComm st sid tok rid2 now).1 := by
  have hd1 := readComm_denied st sid tok rid1 now s hA hv (Or.inl h1)
  have hd2 := readComm_denied st sid tok rid2 now s hA hv (Or.inr ⟨r, h2, hauth⟩)
  exact ⟨hd1, hd2, by rw [hd1, hd2]⟩

/-- Witness for C8: in the demo state, the client-scoped session gets the
same `AccessDeniedError` for the missing record id 9 and for the existing
but forbidden record id 0. -/
theorem denial_uniformity_witness :
    (Advisor.readComm Advisor.demoState2 1 77 9 5).1 =
      .error Advisor.GuardErr.accessDenied ∧
    (Advisor.readComm Advisor.demoState2 1 77 0 5).1 =
      .error Advisor.GuardErr.accessDenied ∧
    (Advisor.readComm Advisor.demoState2 1 77 9 5).1 =
      (Advisor.readComm Advisor.demoState2 1 77 0 5).1 :=
  denial_uniformity Advisor.demoState2 1 77 9 0 5 _ _ rfl rfl rfl rfl (by decide)


/-- C3: a read or write that returns a result has appended exactly one
corresponding audit entry (`read_attempt` / `write_attempt`, granted) to the
ledger — present in the returned state, so written before the result reaches
the caller — and when the ledger append fails (audit store unavailable) the
operation fails with no result (fail-closed). -/
theorem audit_before_response (st : Advisor.GuardState) (sid tok rid now : Nat)
    (comm : Advisor.CommInput) (screen : Except Advisor.ScreenErr Advisor.ScreenData) :
    (∀ p, (Advisor.readComm st sid tok rid now).1 = .ok p →
      st.auditOk = true ∧
      (Advisor.readComm st sid tok rid now).2.ledger = st.ledger ++
        [Advisor.mkEntry st.ledger ⟨now, sid, .readAttempt, rid, .granted⟩]) ∧
    (st.auditOk = false →
      ∃ e, (Advisor.readComm st sid tok rid now).1 = .error e) ∧
    (∀ rid2, (Advisor.writeComm st sid tok comm now screen).1 = .ok rid2 →
      st.auditOk = true ∧
      (Advisor.writeComm st sid tok comm now screen).2.ledger = st.ledger ++
        [Advisor.mkEntry st.ledger ⟨now, sid, .writeAttempt, rid2, .granted⟩]) ∧
    (st.auditOk = false →
      ∃ e, (Advisor.writeComm st sid tok comm now screen).1 = .error e) := by
  refine ⟨?_, ?_, ?_, ?_⟩
  · intro p h
    cases hv : Advisor.verifySession st sid tok now with
    | error e => simp only [Advisor.readComm, hv] at h; cases h
    | ok s =>
        cases hfc : Advisor.findComm st rid with
        | none =>
            simp only [Advisor.readComm, hv, hfc, Advisor.logDenied_eq] at h
            split_ifs at h
        | some r =>
            rcases (Bool.eq_false_or_eq_true
                (Advisor.authorizedFor s r.attorneyId r.clientId)).symm with hauth | hauth
            · simp only [Advisor.readComm, hv, hfc] at h
              rw [if_neg (by simp [hauth]), Advisor.logDenied_eq] at h
              split_ifs at h
            · cases hop : Advisor.openSealed st.keyRegistry r.payload r.keyRef
                  ⟨r.attorneyId, r.clientId⟩ with
              | error e =>
                  simp only [Advisor.readComm, hv, hfc] at h
                  rw [if_pos hauth] at h
                  simp only [hop] at h
                  cases h
              | ok p2 =>
                  cases ha : Advisor.appendE st
                      ⟨now, sid, .readAttempt, rid, .granted⟩ with
                  | none =>
                      simp only [Advisor.readComm, hv, hfc] at h
                      rw [if_pos hauth] at h
                      simp only [hop, ha] at h
                      cases h
                  | some st1 =>
                      rcases (Advisor.appendE_eq_some st _ st1).mp ha
                        with ⟨hA, rfl⟩
                      refine ⟨hA, ?_⟩
                      simp only [Advisor.readComm, hv, hfc]
                      rw [if_pos hauth]
                      simp only [hop, ha]
  · intro hA0
    cases hv : Advisor.verifySession st sid tok now with
    | error e => exact ⟨e, by simp only [Advisor.readComm, hv]⟩
    | ok s =>
        cases hfc : Advisor.findComm st rid with
        | none =>
            refine ⟨.auditWrite, ?_⟩
            simp only [Advisor.readComm, hv, hfc]
            rw [Advisor.logDenied_eq, if_neg (by simp [hA0])]
        | some r =>
            rcases (Bool.eq_false_or_eq_true
                (Advisor.authorizedFor s r.attorneyId r.clientId)).symm with hauth | hauth
            · refine ⟨.auditWrite, ?_⟩
              simp only [Advisor.readComm, hv, hfc]
              rw [if_neg (by simp [hauth]), Advisor.logDenied_eq,
                if_neg (by simp [hA0])]
            · cases hop : Advisor.openSealed st.keyRegistry r.payload r.keyRef
                  ⟨r.attorneyId, r.clientId⟩ with
              | error e =>
                  refine ⟨e, ?_⟩
                  simp only [Advisor.readComm, hv, hfc]
                  rw [if_pos hauth]
                  simp only [hop]
              | ok p2 =>
                  refine ⟨.auditWrite, ?_⟩
                  simp only [Advisor.readComm, hv, hfc]
                  rw [if_pos hauth]
                  simp only [hop, (Advisor.appendE_eq_none st _).mpr hA0]
  · intro rid2 h
    cases hv : Advisor.verifySession st sid tok now with
    | error e => simp only [Advisor.writeComm, hv] at h; cases h
    | ok s =>
        rcases (Bool.eq_false_or_eq_true
            (Advisor.authorizedFor s comm.attorneyId comm.clientId)).symm with hauth | hauth
        · simp only [Advisor.writeComm, hv] at h
          rw [if_neg (by simp [hauth]), Advisor.logDenied_eq] at h
          split_ifs at h
        · cases hg : Advisor.conflictGate st comm.attorneyId comm.clientId now
              screen with
          | error e =>
              simp only [Advisor.writeComm, hv] at h
              rw [if_pos hauth] at h
              simp only [hg, Advisor.logConflictDenied_eq] at h
              split_ifs at h
          | ok pr =>
              rcases pr with ⟨r, st1⟩
              rcases Advisor.conflictGate_ok_shape st comm.attorneyId
                comm.clientId now screen r st1 hg with ⟨crs, rfl⟩
              rcases (Bool.eq_false_or_eq_true r.cleared).symm with hcl | hcl
              · simp only [Advisor.writeComm, hv] at h
                rw [if_pos hauth] at h
                simp only [hg] at h
                rw [if_neg (by simp [hcl]), Advisor.logConflictDenied_eq] at h
                split_ifs at h
              · cases ha : Advisor.appendE { st with conflictResults := crs }
                    ⟨now, sid, .writeAttempt, st.nextRecordId, .granted⟩ with
                | none =>
                    simp only [Advisor.writeComm, hv] at h
                    rw [if_pos hauth] at h
                    simp only [hg] at h
                    rw [if_pos hcl] at h
                    simp only [ha] at h
                    cases h
                | some st2 =>
                    rcases (Advisor.appendE_eq_some _ _ st2).mp ha
                      with ⟨hA, rfl⟩
                    simp only [Advisor.writeComm, hv] at h
                    rw [if_pos hauth] at h
                    simp only [hg] at h
                    rw [if_pos hcl] at h
                    simp only [ha] at h
                    injection h with h2
                    subst h2
                    refine ⟨hA, ?_⟩
                    simp only [Advisor.writeComm, hv]
                    rw [if_pos hauth]
                    simp only [hg]
                    rw [if_pos hcl]
                    simp only [ha]
  · intro hA0
    cases hv : Advisor.verifySession st sid tok now with
    | error e => exact ⟨e, by simp only [Advisor.writeComm, hv]⟩
    | ok s =>
        rcases (Bool.eq_false_or_eq_true
            (Advisor.authorizedFor s comm.attorneyId comm.clientId)).symm with hauth | hauth
        · refine ⟨.auditWrite, ?_⟩
          simp only [Advisor.writeComm, hv]
          rw [if_neg (by simp [hauth]), Advisor.logDenied_eq,
            if_neg (by simp [hA0])]
        · cases hg : Advisor.conflictGate st comm.attorneyId comm.clientId now
              screen with
          | error e =>
              refine ⟨.auditWrite, ?_⟩
              simp only [Advisor.writeComm, hv]
              rw [if_pos hauth]
              simp only [hg]
              rw [Advisor.logConflictDenied_eq, if_neg (by simp [hA0])]
          | ok pr =>
              rcases pr with ⟨r, st1⟩
              rcases Advisor.conflictGate_ok_shape st comm.attorneyId
                comm.clientId now screen r st1 hg with ⟨crs, rfl⟩
              rcases (Bool.eq_false_or_eq_true r.cleared).symm with hcl | hcl
              · refine ⟨.auditWrite, ?_⟩
                simp only [Advisor.writeComm, hv]
                rw [if_pos hauth]
                simp only [hg]
                rw [if_neg (by simp [hcl]), Advisor.logConflictDenied_eq,
                  if_neg (by simp [hA0])]
              · refine ⟨.auditWrite, ?_⟩
                simp only [Advisor.writeComm, hv]
                rw [if_pos hauth]
                simp only [hg]
                rw [if_pos hcl]
                simp only [(Advisor.appendE_eq_none
                  { st with conflictResults := crs } _).mpr hA0]

/-- Witness for C3: the demo read returns its plaintext and has appended
exactly one granted `read_attempt` entry. -/
theorem audit_before_response_witness :
    Advisor.demoState2.auditOk = true ∧
    (Advisor.readComm Advisor.demoState2 0 99 0 5).2.ledger =
      Advisor.demoState2.ledger ++
        [Advisor.mkEntry Advisor.demoState2.ledger
          ⟨5, 0, .readAttempt, 0, .granted⟩] :=
  (audit_before_response Advisor.demoState2 0 99 0 5
    ⟨1, 2, 5, Advisor.CType.note⟩ (.ok ⟨true, 0⟩)).1 5 rfl

/-- A successful conflict gate leaves its result stored (or already stored)
for the pair it concerns. -/
theorem conflictGate_ok_found (st : Advisor.GuardState) (a c now : Nat)
    (screen : Except Advisor.ScreenErr Advisor.ScreenData)
    (r : Advisor.ConflictCheckResult) (st1 : Advisor.GuardState)
    (h : Advisor.conflictGate st a c now screen = .ok (r, st1)) :
    Advisor.findConflict st1 a c = some r := by
  unfold Advisor.conflictGate at h
  split at h
  next r0 heq =>
    injection h with h2
    injection h2 with hr hst
    subst hr
    subst hst
    exact heq
  next heq =>
    split at h
    · exact absurd h (by simp)
    · injection h with h2
      injection h2 with hr hst
      subst hr
      subst hst
      unfold Advisor.findConflict at heq ⊢
      simp only [List.find?_append, heq]
      simp [Option.orElse]

/-- C7: a write succeeds only with a cleared ConflictCheckResult stored for
its (attorney, client) pair; with no stored result the screener is consulted
synchronously, and both an unavailable screener and an uncleared screening
result make the write fail with `ConflictUnresolvedError` (fail-closed). -/
theorem write_requires_cleared_conflict (st : Advisor.GuardState) (sid tok : Nat)
    (comm : Advisor.CommInput) (now : Nat)
    (screen : Except Advisor.ScreenErr Advisor.ScreenData) :
    (∀ rid2, (Advisor.writeComm st sid tok comm now screen).1 = .ok rid2 →
      ∃ cr, Advisor.findConflict (Advisor.writeComm st sid tok comm now screen).2
          comm.attorneyId comm.clientId = some cr ∧ cr.cleared = true) ∧
    (∀ s, st.auditOk = true →
      Advisor.verifySession st sid tok now = .ok s →
      Advisor.authorizedFor s comm.attorneyId comm.clientId = true →
      Advisor.findConflict st comm.attorneyId comm.clientId = Option.none →
      screen = .error .unavailable →
      (Advisor.writeComm st sid tok comm now screen).1 =
        .error Advisor.GuardErr.conflictUnresolved) ∧
    (∀ s d, st.auditOk = true →
      Advisor.verifySession st sid tok now = .ok s →
      Advisor.authorizedFor s comm.attorneyId comm.clientId = true →
      Advisor.findConflict st comm.attorneyId comm.clientId = Option.none →
      screen = .ok d → d.cleared = false →
      (Advisor.writeComm st sid tok comm now screen).1 =
        .error Advisor.GuardErr.conflictUnresolved) := by
  refine ⟨?_, ?_, ?_⟩
  · intro rid2 h
    cases hv : Advisor.verifySession st sid tok now with
    | error e => simp only [Advisor.writeComm, hv] at h; cases h
    | ok s =>
        rcases (Bool.eq_false_or_eq_true
            (Advisor.authorizedFor s comm.attorneyId comm.clientId)).symm
            with hauth | hauth
        · simp only [Advisor.writeComm, hv] at h
          rw [if_neg (by simp [hauth]), Advisor.logDenied_eq] at h
          split_ifs at h
        · cases hg : Advisor.conflictGate st comm.attorneyId comm.clientId now
              screen with
          | error e =>
              simp only [Advisor.writeComm, hv] at h
              rw [if_pos hauth] at h
              simp only [hg, Advisor.logConflictDenied_eq] at h
              split_ifs at h
          | ok pr =>
              rcases pr with ⟨r, st1⟩
              rcases Advisor.conflictGate_ok_shape st comm.attorneyId
                comm.clientId now screen r st1 hg with ⟨crs, rfl⟩
              have hfound := conflictGate_ok_found st comm.attorneyId
                comm.clientId now screen r _ hg
              rcases (Bool.eq_false_or_eq_true r.cleared).symm with hcl | hcl
              · simp only [Advisor.writeComm, hv] at h
                rw [if_pos hauth] at h
                simp only [hg] at h
                rw [if_neg (by simp [hcl]), Advisor.logConflictDenied_eq] at h
                split_ifs at h
              · cases ha : Advisor.appendE { st with conflictResults := crs }
                    ⟨now, sid, .writeAttempt, st.nextRecordId, .granted⟩ with
                | none =>
                    simp only [Advisor.writeComm, hv] at h
                    rw [if_pos hauth] at h
                    simp only [hg] at h
                    rw [if_pos hcl] at h
                    simp only [ha] at h
                    cases h
                | some st2 =>
                    rcases (Advisor.appendE_eq_some _ _ st2).mp ha
                      with ⟨hA, rfl⟩
                    refine ⟨r, ?_, hcl⟩
                    simp only [Advisor.writeComm, hv]
                    rw [if_pos hauth]
                    simp only [hg]
                    rw [if_pos hcl]
                    simp only [ha]
                    simpa [Advisor.findConflict] using hfound
  · intro s hA hv hauth hnone hscreen
    subst hscreen
    have hgate : Advisor.conflictGate st comm.attorneyId comm.clientId now
        (.error .unavailable) = .error .conflictUnresolved := by
      unfold Advisor.conflictGate
      rw [hnone]
    simp only [Advisor.writeComm, hv]
    rw [if_pos hauth]
    simp only [hgate]
    rw [Advisor.logConflictDenied_eq, if_pos hA]
  · intro s d hA hv hauth hnone hscreen hcl
    subst hscreen
    have hgate : Advisor.conflictGate st comm.attorneyId comm.clientId now
        (.ok d) = .ok (⟨st.conflictResults.length, comm.attorneyId,
          comm.clientId, d.cleared, d.reason, now⟩,
          { st with conflictResults := st.conflictResults ++
            [⟨st.conflictResults.length, comm.attorneyId, comm.clientId,
              d.cleared, d.reason, now⟩] }) := by
      unfold Advisor.conflictGate
      rw [hnone]
    simp only [Advisor.writeComm, hv]
    rw [if_pos hauth]
    simp only [hgate]
    rw [if_neg (by simp [hcl]), Advisor.logConflictDenied_eq,
      if_pos (by simpa using hA)]

/-- Verification depends only on the stored sessions. -/
theorem verifySession_congr (st st2 : Advisor.GuardState) (sid tok now : Nat)
    (h : st2.sessions = st.sessions) :
    Advisor.verifySession st2 sid tok now = Advisor.verifySession st sid tok now := by
  unfold Advisor.verifySession Advisor.findSession
  rw [h]

/-- A stored conflict result is consulted, not recomputed: the gate returns
it unchanged whatever the screener would say. -/
theorem conflictGate_cached (st : Advisor.GuardState) (a c now : Nat)
    (screen : Except Advisor.ScreenErr Advisor.ScreenData)
    (r : Advisor.ConflictCheckResult)
    (h : Advisor.findConflict st a c = some r) :
    Advisor.conflictGate st a c now screen = .ok (r, st) := by
  unfold Advisor.conflictGate
  rw [h]

/-- The full evaluation of a successful write. -/
theorem writeComm_success_eq (st : Advisor.GuardState) (sid tok : Nat)
    (comm : Advisor.CommInput) (now : Nat)
    (screen : Except Advisor.ScreenErr Advisor.ScreenData)
    (s : Advisor.Session) (r : Advisor.ConflictCheckResult) (st1 : Advisor.GuardState)
    (hv : Advisor.verifySession st sid tok now = .ok s)
    (hauth : Advisor.authorizedFor s comm.attorneyId comm.clientId = true)
    (hg : Advisor.conflictGate st comm.attorneyId comm.clientId now screen =
      .ok (r, st1))
    (hcl : r.cleared = true)
    (hA : st1.auditOk = true) :
    Advisor.writeComm st sid tok comm now screen =
      (.ok st1.nextRecordId,
       { st1 with
         ledger := st1.ledger ++ [Advisor.mkEntry st1.ledger
           ⟨now, sid, .writeAttempt, st1.nextRecordId, .granted⟩],
         comms := st1.comms ++ [⟨st1.nextRecordId, comm.attorneyId,
           comm.clientId, now,
           (Advisor.sealPayload (Advisor.keyGen st1.nextKeyRef) st1.nextKeyRef
             comm.payload ⟨comm.attorneyId, comm.clientId⟩).1,
           (Advisor.sealPayload (Advisor.keyGen st1.nextKeyRef) st1.nextKeyRef
             comm.payload ⟨comm.attorneyId, comm.clientId⟩).2,
           comm.contentType⟩],
         nextRecordId := st1.nextRecordId + 1,
         keyRegistry := st1.keyRegistry ++
           [(st1.nextKeyRef, Advisor.keyGen st1.nextKeyRef)],
         nextKeyRef := st1.nextKeyRef + 1 }) := by
  have ha : Advisor.appendE st1
      ⟨now, sid, .writeAttempt, st1.nextRecordId, .granted⟩ =
      some { st1 with ledger := st1.ledger ++ [Advisor.mkEntry st1.ledger
        ⟨now, sid, .writeAttempt, st1.nextRecordId, .granted⟩] } :=
    (Advisor.appendE_eq_some st1 _ _).mpr ⟨hA, rfl⟩
  simp only [Advisor.writeComm, hv]
  rw [if_pos hauth]
  simp only [hg]
  rw [if_pos hcl]
  simp only [ha]

/-- The full evaluation of a write stopped by an uncleared conflict result. -/
theorem writeComm_uncleared_eq (st : Advisor.GuardState) (sid tok : Nat)
    (comm : Advisor.CommInput) (now : Nat)
    (screen : Except Advisor.ScreenErr Advisor.ScreenData)
    (s : Advisor.Session) (r : Advisor.ConflictCheckResult) (st1 : Advisor.GuardState)
    (hv : Advisor.verifySession st sid tok now = .ok s)
    (hauth : Advisor.authorizedFor s comm.attorneyId comm.clientId = true)
    (hg : Advisor.conflictGate st comm.attorneyId comm.clientId now screen =
      .ok (r, st1))
    (hcl : r.cleared = false)
    (hA : st1.auditOk = true) :
    Advisor.writeComm st sid tok comm now screen =
      (.error Advisor.GuardErr.conflictUnresolved,
       { st1 with ledger := st1.ledger ++ [Advisor.mkEntry st1.ledger
         ⟨now, sid, .conflictCheck, comm.attorneyId, .denied⟩] }) := by
  simp only [Advisor.writeComm, hv]
  rw [if_pos hauth]
  simp only [hg]
  rw [if_neg (by simp [hcl]), Advisor.logConflictDenied_eq, if_pos hA]

/-- C9: two first-time writes for the same new (attorney, client) pair —
serialized by the per-pair atomic screen-and-store step — create exactly one
ConflictCheckResult: the first call screens and stores it, the second call
reads the stored result instead of re-screening (its own screener response is
irrelevant), and both calls observe the outcome of that single result. -/
theorem concurrent_first_writes_single_conflict (st : Advisor.GuardState)
    (sid tok : Nat) (comm : Advisor.CommInput) (now : Nat)
    (d : Advisor.ScreenData) (screen2 : Except Advisor.ScreenErr Advisor.ScreenData)
    (s : Advisor.Session)
    (hA : st.auditOk = true)
    (hv : Advisor.verifySession st sid tok now = .ok s)
    (hauth : Advisor.authorizedFor s comm.attorneyId comm.clientId = true)
    (hnone : Advisor.findConflict st comm.attorneyId comm.clientId = Option.none) :
    Advisor.countConflict
      (Advisor.writeComm (Advisor.writeComm st sid tok comm now (.ok d)).2
        sid tok comm now screen2).2 comm.attorneyId comm.clientId = 1 ∧
    (∃ cr, Advisor.findConflict
      (Advisor.writeComm (Advisor.writeComm st sid tok comm now (.ok d)).2
        sid tok comm now screen2).2 comm.attorneyId comm.clientId = some cr ∧
      cr.cleared = d.cleared) ∧
    (d.cleared = true →
      (∃ v1, (Advisor.writeComm st sid tok comm now (.ok d)).1 = .ok v1) ∧
      (∃ v2, (Advisor.writeComm (Advisor.writeComm st sid tok comm now (.ok d)).2
        sid tok comm now screen2).1 = .ok v2)) ∧
    (d.cleared = false →
      (Advisor.writeComm st sid tok comm now (.ok d)).1 =
        .error Advisor.GuardErr.conflictUnresolved ∧
      (Advisor.writeComm (Advisor.writeComm st sid tok comm now (.ok d)).2
        sid tok comm now screen2).1 =
        .error Advisor.GuardErr.conflictUnresolved) ∧
    (∀ screen3, (Advisor.writeComm (Advisor.writeComm st sid tok comm now (.ok d)).2
        sid tok comm now screen3).1 =
      (Advisor.writeComm (Advisor.writeComm st sid tok comm now (.ok d)).2
        sid tok comm now screen2).1) := by
  have hgate1 : Advisor.conflictGate st comm.attorneyId comm.clientId now (.ok d) =
      .ok (⟨st.conflictResults.length, comm.attorneyId, comm.clientId,
            d.cleared, d.reason, now⟩,
        { st with conflictResults := st.conflictResults ++
          [⟨st.conflictResults.length, comm.attorneyId, comm.clientId,
            d.cleared, d.reason, now⟩] }) := by
    unfold Advisor.conflictGate
    rw [hnone]
  have hfound := conflictGate_ok_found st comm.attorneyId comm.clientId now
    (.ok d) _ _ hgate1
  have hcount : ((st.conflictResults ++
      ([⟨st.conflictResults.length, comm.attorneyId, comm.clientId,
        d.cleared, d.reason, now⟩] : List Advisor.ConflictCheckResult)).filter
      (fun r => r.attorneyId == comm.attorneyId &&
        r.clientId == comm.clientId)).length = 1 := by
    rw [List.filter_append]
    have h0 : st.conflictResults.filter
        (fun r => r.attorneyId == comm.attorneyId &&
          r.clientId == comm.clientId) = [] :=
      List.filter_eq_nil_iff.mpr (List.find?_eq_none.mp hnone)
    rw [h0]
    simp
  have hv2 : Advisor.verifySession (Advisor.writeComm st sid tok comm now (.ok d)).2
      sid tok now = .ok s :=
    (verifySession_congr st (Advisor.writeComm st sid tok comm now (.ok d)).2
      sid tok now (writeComm_preserves st sid tok comm now (.ok d)).1).trans hv
  have hA2 : (Advisor.writeComm st sid tok comm now (.ok d)).2.auditOk = true :=
    ((writeComm_preserves st sid tok comm now (.ok d)).2.2).trans hA
  rcases (Bool.eq_false_or_eq_true d.cleared).symm with hcl | hcl
  · -- the screener reported an uncleared result
    have w1eq := writeComm_uncleared_eq st sid tok comm now (.ok d) s _ _
      hv hauth hgate1 hcl hA
    have hfound2 : Advisor.findConflict (Advisor.writeComm st sid tok comm now (.ok d)).2
        comm.attorneyId comm.clientId =
        some ⟨st.conflictResults.length, comm.attorneyId, comm.clientId,
          d.cleared, d.reason, now⟩ := by
      rw [w1eq]
      exact hfound
    have hgate2 := conflictGate_cached (Advisor.writeComm st sid tok comm now (.ok d)).2
      comm.attorneyId comm.clientId now screen2 _ hfound2
    have w2eq := writeComm_uncleared_eq (Advisor.writeComm st sid tok comm now (.ok d)).2
      sid tok comm now screen2 s _ _ hv2 hauth hgate2 hcl hA2
    refine ⟨?_, ?_, ?_, ?_, ?_⟩
    · rw [w2eq, w1eq]
      exact hcount
    · refine ⟨⟨st.conflictResults.length, comm.attorneyId, comm.clientId,
        d.cleared, d.reason, now⟩, ?_, rfl⟩
      rw [w2eq, w1eq]
      exact hfound
    · intro hcon
      rw [hcl] at hcon
      cases hcon
    · intro h2
      exact ⟨by rw [w1eq], by rw [w2eq]⟩
    · intro screen3
      have hgate3 := conflictGate_cached (Advisor.writeComm st sid tok comm now (.ok d)).2
        comm.attorneyId comm.clientId now screen3 _ hfound2
      have w2eq3 := writeComm_uncleared_eq (Advisor.writeComm st sid tok comm now (.ok d)).2
        sid tok comm now screen3 s _ _ hv2 hauth hgate3 hcl hA2
      rw [w2eq3, w2eq]
  · -- the screener cleared the pair
    have w1eq := writeComm_success_eq st sid tok comm now (.ok d) s _ _
      hv hauth hgate1 hcl hA
    have hfound2 : Advisor.findConflict (Advisor.writeComm st sid tok comm now (.ok d)).2
        comm.attorneyId comm.clientId =
        some ⟨st.conflictResults.length, comm.attorneyId, comm.clientId,
          d.cleared, d.reason, now⟩ := by
      rw [w1eq]
      exact hfound
    have hgate2 := conflictGate_cached (Advisor.writeComm st sid tok comm now (.ok d)).2
      comm.attorneyId comm.clientId now screen2 _ hfound2
    have w2eq := writeComm_success_eq (Advisor.writeComm st sid tok comm now (.ok d)).2
      sid tok comm now screen2 s _ _ hv2 hauth hgate2 hcl hA2
    refine ⟨?_, ?_, ?_, ?_, ?_⟩
    · rw [w2eq, w1eq]
      exact hcount
    · refine ⟨⟨st.conflictResults.length, comm.attorneyId, comm.clientId,
        d.cleared, d.reason, now⟩, ?_, rfl⟩
      rw [w2eq, w1eq]
      exact hfound
    · intro h2
      exact ⟨⟨_, by rw [w1eq]⟩, ⟨_, by rw [w2eq]⟩⟩
    · intro hcon
      rw [hcl] at hcon
      cases hcon
    · intro screen3
      have hgate3 := conflictGate_cached (Advisor.writeComm st sid tok comm now (.ok d)).2
        comm.attorneyId comm.clientId now screen3 _ hfound2
      have w2eq3 := writeComm_success_eq (Advisor.writeComm st sid tok comm now (.ok d)).2
        sid tok comm now screen3 s _ _ hv2 hauth hgate3 hcl hA2
      rw [w2eq3, w2eq]

/-- Witness for C7: in the demo state a write with an unavailable screener
fails with `ConflictUnresolvedError`, and a successful write leaves a cleared
result stored for its pair. -/
theorem write_requires_cleared_conflict_witness :
    (Advisor.writeComm Advisor.demoState 0 99 ⟨1, 2, 5, Advisor.CType.note⟩ 5
      (.error .unavailable)).1 = .error Advisor.GuardErr.conflictUnresolved ∧
    ∃ cr, Advisor.findConflict (Advisor.writeComm Advisor.demoState 0 99
        ⟨1, 2, 5, Advisor.CType.note⟩ 5 (.ok ⟨true, 0⟩)).2 1 2 = some cr ∧
      cr.cleared = true :=
  ⟨(write_requires_cleared_conflict Advisor.demoState 0 99
      ⟨1, 2, 5, Advisor.CType.note⟩ 5 (.error .unavailable)).2.1 _
      rfl rfl rfl rfl rfl,
   (write_requires_cleared_conflict Advisor.demoState 0 99
      ⟨1, 2, 5, Advisor.CType.note⟩ 5 (.ok ⟨true, 0⟩)).1 0 rfl⟩

/-- Witness for C9: running the two demo first-time writes — the second with
an unavailable screener — leaves exactly one stored ConflictCheckResult and
both calls succeed on the cleared outcome. -/
theorem concurrent_first_writes_single_conflict_witness :
    Advisor.countConflict
      (Advisor.writeComm (Advisor.writeComm Advisor.demoState 0 99
        ⟨1, 2, 5, Advisor.CType.note⟩ 5 (.ok ⟨true, 0⟩)).2 0 99
        ⟨1, 2, 5, Advisor.CType.note⟩ 5 (.error .unavailable)).2 1 2 = 1 ∧
    (∃ v2, (Advisor.writeComm (Advisor.writeComm Advisor.demoState 0 99
        ⟨1, 2, 5, Advisor.CType.note⟩ 5 (.ok ⟨true, 0⟩)).2 0 99
        ⟨1, 2, 5, Advisor.CType.note⟩ 5 (.error .unavailable)).1 = .ok v2) :=
  ⟨(concurrent_first_writes_single_conflict Advisor.demoState 0 99
      ⟨1, 2, 5, Advisor.CType.note⟩ 5 ⟨true, 0⟩ (.error .unavailable) _
      rfl rfl rfl rfl).1,
   ((concurrent_first_writes_single_conflict Advisor.demoState 0 99
      ⟨1, 2, 5, Advisor.CType.note⟩ 5 ⟨true, 0⟩ (.error .unavailable) _
      rfl rfl rfl rfl).2.2.1 rfl).2⟩

end Advisor
